import Mathlib

/-!
RenderLayer and Movement: a shallow embedding.

Embedding of `src/Application/Layers/RenderLayer.cpp` (the forward render pass
`RenderLayer::OnRender` and `RenderLayer::OnWindowResize`) and of
`src/Gameplay/Components/Movement.cpp` (`Movement::Update`).

Modelling conventions
* Shared pointers (`Material::Sptr`, mesh, shader, `GameObject*`) are references:
  a natural number names the object pointed to, `none` is the null pointer, and
  pointer comparison is equality of `Option` references.
* Calls on external collaborators (OpenGL, the scene, meshes, shaders, uniform
  buffers, the rigid body) are recorded, in program order, as a list of events.
* Dereferencing a null pointer is undefined behaviour in C++; it is modelled as
  an `Except` error, so a run that dereferences null produces no result.
  `OnRenderTrace` is the same pass with the events kept: it returns the events
  issued up to the end of the pass or up to the first null dereference, and
  agrees with `OnRender` on the passes that complete (`OnRender_eq_trace`).
* `float` quantities are rationals: matrix arithmetic is exact and comparisons
  are the usual order.
* `int` is `Int` in the 32-bit two's complement range, products are wrapped.
-/

set_option autoImplicit false

namespace glm

/-- A 4x4 matrix, `glm::mat4`. -/
abbrev mat4 := Matrix (Fin 4) (Fin 4) ℚ

/-- A 3x3 matrix, `glm::mat3`. -/
abbrev mat3 := Matrix (Fin 3) (Fin 3) ℚ

/-- A 3-vector, `glm::vec3`. -/
abbrev vec3 := ℚ × ℚ × ℚ

/-- A pair of `int`, `glm::ivec2`. -/
structure ivec2 where
  x : Int
  y : Int
deriving DecidableEq, Repr

/-- The matrix inverse `glm::inverse` in exact arithmetic: the adjugate divided
by the determinant. -/
def inverse {n : Nat} (M : Matrix (Fin n) (Fin n) ℚ) : Matrix (Fin n) (Fin n) ℚ :=
  (M.det)⁻¹ • M.adjugate

/-- The matrix transpose `glm::transpose`. -/
def transpose {n : Nat} (M : Matrix (Fin n) (Fin n) ℚ) : Matrix (Fin n) (Fin n) ℚ :=
  M.transpose

/-- The conversion `glm::mat3(mat4)`: the upper-left 3x3 block. -/
def toMat3 (M : mat4) : mat3 :=
  fun i j => M (Fin.castSucc i) (Fin.castSucc j)

/-- Wrap an integer to the 32-bit two's complement range of `int`. -/
def wrapInt32 (z : Int) : Int :=
  (z + 2147483648) % 4294967296 - 2147483648

/-- The product of two `int`, taken modulo 2^32. -/
def mulInt32 (a b : Int) : Int :=
  wrapInt32 (a * b)

/-- The value is a 32-bit signed integer. -/
def isInt32 (z : Int) : Bool :=
  decide (-2147483648 ≤ z) && decide (z ≤ 2147483647)

end glm

/-- Reference to a mesh object (`VertexArrayObject::Sptr` target). -/
abbrev MeshRef := Nat

/-- Reference to a material object (`Material::Sptr` target). -/
abbrev MatRef := Nat

/-- Reference to a shader program object (`ShaderProgram::Sptr` target). -/
abbrev ShaderRef := Nat

/-- Reference to a texture object. -/
abbrev TexRef := Nat

/-- The part of a `GameObject` the render pass reads. -/
structure GameObject where
  transform : glm.mat4
  position : glm.vec3

/-- A `RenderComponent`: mesh and material handles (either may be null) and the
raw pointer to the owning game object (`GetGameObject()`, may be null). -/
structure RenderComponent where
  mesh : Option MeshRef
  material : Option MatRef
  gameObject : Option GameObject

/-- The `Camera` component as read by the render pass. -/
structure Camera where
  gameObject : Option GameObject
  projection : glm.mat4
  view : glm.mat4
  viewProjection : glm.mat4

/-- The scene as seen by `RenderLayer::OnRender`. `shaderOf m` is what
`GetShader()` returns on the material object `m` (a possibly null handle);
`renderables` is the sequence visited by `Components().Each<RenderComponent>`. -/
structure Scene where
  MainCamera : Option Camera
  DefaultMaterial : Option MatRef
  skyboxTexture : Option TexRef
  colorLUT : Option TexRef
  shaderOf : MatRef → Option ShaderRef
  renderables : List RenderComponent

/-- Contents of the frame-level uniform buffer. -/
structure FrameLevelUniforms where
  u_Projection : glm.mat4
  u_View : glm.mat4
  u_ViewProjection : glm.mat4
  u_CameraPos : glm.vec3 × ℚ
  u_Time : ℚ
  u_DeltaTime : ℚ
  u_RenderFlags : Nat

/-- Contents of the instance-level uniform buffer. -/
structure InstanceLevelUniforms where
  u_Model : glm.mat4
  u_ModelViewProjection : glm.mat4
  u_NormalMatrix : glm.mat3

/-- The clock values read from `Timing::Current()`. -/
structure Timing where
  timeSinceSceneLoad : ℚ
  deltaTime : ℚ

/-- Calls made by `RenderLayer::OnRender` on its collaborators. -/
inductive Event where
  | viewport (w h : Int)
  | fboBind
  | clear
  | debugSetViewProjection (vp : glm.mat4)
  | enableDepthAndCull
  | environmentBind (t : TexRef)
  | colorLUTBind (t : TexRef)
  | preRender
  | frameUboBind
  | instanceUboBind
  | drawPhysicsDebug
  | frameUpdate (u : FrameLevelUniforms)
  | setMaterial (m : MatRef)
  | shaderBind (s : ShaderRef)
  | materialApply (m : MatRef)
  | instanceUpdate (u : InstanceLevelUniforms)
  | meshDraw (m : MeshRef)
  | drawSkybox
  | vaoUnbind

/-- The null dereferences a run of the layer can hit. -/
inductive Fault where
  | nullCamera
  | nullCameraObject
  | nullShader
  | nullGameObject
deriving DecidableEq, Repr

/-- The output target `_primaryFBO` (its size). -/
structure Framebuffer where
  size : glm.ivec2
deriving DecidableEq, Repr

/-- The fields of a loaded `RenderLayer` used by the pass. -/
structure RenderLayer where
  primaryFBO : Framebuffer
  renderFlags : Nat

/-- The two locals of `OnRender` captured by the loop body: `currentMat` and
`shader`. -/
structure BindState where
  currentMat : Option MatRef
  shader : Option ShaderRef
deriving DecidableEq, Repr

namespace RenderLayer

/-- Lines 105-113 of `OnRender`: the material the renderable ends up with, the
renderable after the possible `SetMaterial(defaultMat)` and that call as an
event, or `none` when the lambda returns early. -/
def materialFallback (defaultMat : Option MatRef) (renderable : RenderComponent) :
    Option (MatRef × RenderComponent × List Event) :=
  match renderable.material with
  | some m => some (m, renderable, [])
  | none =>
    match defaultMat with
    | some d => some (d, { renderable with material := some d }, [Event.setMaterial d])
    | none => none

/-- Lines 117-123 of `OnRender`: rebind when the material differs from
`currentMat`. -/
def bindMaterial (shaderOf : MatRef → Option ShaderRef) (st : BindState) (m : MatRef) :
    Except Fault (BindState × List Event) :=
  if some m ≠ st.currentMat then
    match shaderOf m with
    | none => .error Fault.nullShader
    | some sh =>
      .ok ({ currentMat := some m, shader := some sh },
           [Event.shaderBind sh, Event.materialApply m])
  else .ok (st, [])

/-- Lines 129-132 of `OnRender`: the instance uniforms written for an object. -/
def instanceData (viewProj : glm.mat4) (object : GameObject) : InstanceLevelUniforms :=
  { u_Model := object.transform
    u_ModelViewProjection := viewProj * object.transform
    u_NormalMatrix := glm.toMat3 (glm.transpose (glm.inverse object.transform)) }

/-- The body of the lambda passed to `Each<RenderComponent>` (lines 99-137): the
new captured locals, the renderable after the call and the events issued. -/
def renderEach (shaderOf : MatRef → Option ShaderRef) (viewProj : glm.mat4)
    (defaultMat : Option MatRef) (st : BindState) (renderable : RenderComponent) :
    Except Fault (BindState × RenderComponent × List Event) :=
  match renderable.mesh with
  | none => .ok (st, renderable, [])
  | some mesh =>
    match materialFallback defaultMat renderable with
    | none => .ok (st, renderable, [])
    | some (m, r1, evs0) =>
      match bindMaterial shaderOf st m with
      | .error e => .error e
      | .ok (st1, evs1) =>
        match r1.gameObject with
        | none => .error Fault.nullGameObject
        | some object =>
          .ok (st1, r1,
               evs0 ++ evs1 ++
                 [Event.instanceUpdate (instanceData viewProj object), Event.meshDraw mesh])

/-- The iteration `Each<RenderComponent>` over the renderables, in order. -/
def renderLoop (shaderOf : MatRef → Option ShaderRef) (viewProj : glm.mat4)
    (defaultMat : Option MatRef) :
    BindState → List RenderComponent → Except Fault (BindState × List RenderComponent × List Event)
  | st, [] => .ok (st, [], [])
  | st, r :: rs =>
    match renderEach shaderOf viewProj defaultMat st r with
    | .error e => .error e
    | .ok (st1, r1, evs1) =>
      match renderLoop shaderOf viewProj defaultMat st1 rs with
      | .error e => .error e
      | .ok (st2, rs2, evs2) => .ok (st2, r1 :: rs2, evs1 ++ evs2)

/-- The optional texture binds of lines 66-75. -/
def bindGlobals (scene : Scene) : List Event :=
  (match scene.skyboxTexture with
   | some t => [Event.environmentBind t]
   | none => []) ++
  (match scene.colorLUT with
   | some t => [Event.colorLUTBind t]
   | none => [])

/-- The calls of lines 40-94, before the loop over the renderables. -/
def frameHeader (layer : RenderLayer) (timing : Timing) (scene : Scene) (camera : Camera)
    (camObject : GameObject) : List Event :=
  let frameData : FrameLevelUniforms :=
    { u_Projection := camera.projection
      u_View := camera.view
      u_ViewProjection := camera.viewProjection
      u_CameraPos := (camObject.position, 1)
      u_Time := timing.timeSinceSceneLoad
      u_DeltaTime := timing.deltaTime
      u_RenderFlags := layer.renderFlags }
  [Event.viewport layer.primaryFBO.size.x layer.primaryFBO.size.y, Event.fboBind,
   Event.clear, Event.debugSetViewProjection camera.viewProjection, Event.enableDepthAndCull] ++
  bindGlobals scene ++
  [Event.preRender, Event.frameUboBind, Event.instanceUboBind, Event.drawPhysicsDebug,
   Event.frameUpdate frameData]

/-- The pass `RenderLayer::OnRender`: the scene after the pass (renderables may
have received the default material) and the events issued. -/
def OnRender (layer : RenderLayer) (timing : Timing) (scene : Scene) :
    Except Fault (Scene × List Event) :=
  match scene.MainCamera with
  | none => .error Fault.nullCamera
  | some camera =>
    let viewProj := camera.viewProjection
    match camera.gameObject with
    | none => .error Fault.nullCameraObject
    | some camObject =>
      match renderLoop scene.shaderOf viewProj scene.DefaultMaterial
          { currentMat := none, shader := none } scene.renderables with
      | .error e => .error e
      | .ok (_, rs, evs) =>
        .ok ({ scene with renderables := rs },
             frameHeader layer timing scene camera camObject ++ evs ++
               [Event.drawSkybox, Event.vaoUnbind])

/-- The lambda body of lines 99-137 with the events it has issued when it stops:
the events up to its return or up to its first null dereference, and the outcome
(the new captured locals and the renderable, or the dereference). -/
def renderEachTrace (shaderOf : MatRef → Option ShaderRef) (viewProj : glm.mat4)
    (defaultMat : Option MatRef) (st : BindState) (renderable : RenderComponent) :
    List Event × Except Fault (BindState × RenderComponent) :=
  match renderable.mesh with
  | none => ([], .ok (st, renderable))
  | some mesh =>
    match materialFallback defaultMat renderable with
    | none => ([], .ok (st, renderable))
    | some (m, r1, evs0) =>
      match bindMaterial shaderOf st m with
      | .error e => (evs0, .error e)
      | .ok (st1, evs1) =>
        match r1.gameObject with
        | none => (evs0 ++ evs1, .error Fault.nullGameObject)
        | some object =>
          (evs0 ++ evs1 ++
             [Event.instanceUpdate (instanceData viewProj object), Event.meshDraw mesh],
           .ok (st1, r1))

/-- The iteration over the renderables with the events issued when it stops: it
stops at the first renderable whose processing dereferences null. -/
def renderLoopTrace (shaderOf : MatRef → Option ShaderRef) (viewProj : glm.mat4)
    (defaultMat : Option MatRef) :
    BindState → List RenderComponent →
      List Event × Except Fault (BindState × List RenderComponent)
  | st, [] => ([], .ok (st, []))
  | st, r :: rs =>
    match renderEachTrace shaderOf viewProj defaultMat st r with
    | (evs1, .error e) => (evs1, .error e)
    | (evs1, .ok (st1, r1)) =>
      match renderLoopTrace shaderOf viewProj defaultMat st1 rs with
      | (evs2, .error e) => (evs1 ++ evs2, .error e)
      | (evs2, .ok (st2, rs2)) => (evs1 ++ evs2, .ok (st2, r1 :: rs2))

/-- The calls of lines 40-47, before the camera is read. -/
def frameEntry (layer : RenderLayer) : List Event :=
  [Event.viewport layer.primaryFBO.size.x layer.primaryFBO.size.y, Event.fboBind, Event.clear]

/-- The calls of lines 40-83, before the frame uniforms are filled in. -/
def frameSetup (layer : RenderLayer) (scene : Scene) (camera : Camera) : List Event :=
  frameEntry layer ++
  [Event.debugSetViewProjection camera.viewProjection, Event.enableDepthAndCull] ++
  bindGlobals scene ++
  [Event.preRender, Event.frameUboBind, Event.instanceUboBind, Event.drawPhysicsDebug]

/-- The pass `RenderLayer::OnRender` with the events issued when it stops: the
whole trace of a pass that completes, and the events issued before the first
null dereference of a pass that does not. -/
def OnRenderTrace (layer : RenderLayer) (timing : Timing) (scene : Scene) :
    List Event × Except Fault Scene :=
  match scene.MainCamera with
  | none => (frameEntry layer, .error Fault.nullCamera)
  | some camera =>
    match camera.gameObject with
    | none => (frameSetup layer scene camera, .error Fault.nullCameraObject)
    | some camObject =>
      match renderLoopTrace scene.shaderOf camera.viewProjection scene.DefaultMaterial
          { currentMat := none, shader := none } scene.renderables with
      | (evs, .error e) => (frameHeader layer timing scene camera camObject ++ evs, .error e)
      | (evs, .ok (_, rs)) =>
        (frameHeader layer timing scene camera camObject ++ evs ++
           [Event.drawSkybox, Event.vaoUnbind],
         .ok { scene with renderables := rs })

end RenderLayer

/-- Modelled from the spec: `Framebuffer::Resize` is not in the sources; the
output target is a resizable render target exposing its width and height, so a
resize records the new size. -/
def Framebuffer.Resize (_fbo : Framebuffer) (newSize : glm.ivec2) : Framebuffer :=
  { size := newSize }

namespace RenderLayer

/-- The handler `RenderLayer::OnWindowResize` (lines 148-158). The effect of
`Camera::ResizeWindow`, which is not in the sources, is the parameter
`resizeWindow`. -/
def OnWindowResize (resizeWindow : Camera → Int → Int → Camera) (layer : RenderLayer)
    (scene : Scene) (_oldSize newSize : glm.ivec2) : Except Fault (RenderLayer × Scene) :=
  if glm.mulInt32 newSize.x newSize.y = 0 then .ok (layer, scene)
  else
    match scene.MainCamera with
    | none => .error Fault.nullCamera
    | some camera =>
      .ok ({ layer with primaryFBO := Framebuffer.Resize layer.primaryFBO newSize },
           { scene with MainCamera := some (resizeWindow camera newSize.x newSize.y) })

end RenderLayer

/-! ## Movement -/

/-- Key state returned by `glfwGetKey` for a released key. -/
def GLFW_RELEASE : Int := 0

/-- Key state returned by `glfwGetKey` for a pressed key. -/
def GLFW_PRESS : Int := 1

/-- The rigid body operations used by `Movement`: `GetLinearVelocity` and
`ApplyImpulse` on a body state `β` (the physics engine is not in the sources). -/
structure RigidBodyOps (β : Type) where
  GetLinearVelocity : β → glm.vec3
  ApplyImpulse : β → glm.vec3 → β

/-- The `Movement` component together with what it acts on: the flag `is_moving`,
the field `_impulse`, the rigid body `*_body` and the rotation of the owning game
object. -/
structure Movement (β : Type) where
  is_moving : Bool
  _impulse : ℚ
  body : β
  rotation : glm.vec3

namespace Movement

/-- The method `Movement::Update` (lines 24-46) for the key states `keyA` and
`keyD` returned by `glfwGetKey`: the component after the call and the impulses
applied during the call, in order. -/
def Update {β : Type} (ops : RigidBodyOps β) (keyA keyD : Int) (_deltaTime : ℚ)
    (self : Movement β) : Movement β × List glm.vec3 :=
  let m0 : Movement β := { self with is_moving := false }
  let r1 : Movement β × List glm.vec3 :=
    if keyA ≠ 0 ∧ GLFW_PRESS ≠ 0 then
      if (ops.GetLinearVelocity m0.body).1 ≤ 20 then
        ({ m0 with
           body := ops.ApplyImpulse m0.body (-m0._impulse, 0, 0)
           is_moving := true
           rotation := (90, 0, 0) },
         [(-m0._impulse, 0, 0)])
      else (m0, [])
    else (m0, [])
  let m1 := r1.1
  if keyD ≠ 0 ∧ GLFW_PRESS ≠ 0 then
    if (ops.GetLinearVelocity m1.body).1 ≥ -20 then
      ({ m1 with
         body := ops.ApplyImpulse m1.body (m1._impulse, 0, 0)
         is_moving := true
         rotation := (90, 0, 0) },
       r1.2 ++ [(m1._impulse, 0, 0)])
    else r1
  else r1

end Movement

/-! ## Vocabulary of the render-loop claims -/

namespace RenderLayer

/-- The material reference a renderable resolves to: its own material, or the
scene default when its own is null (null when both are). -/
def resolvedMaterial (defaultMat : Option MatRef) (r : RenderComponent) : Option MatRef :=
  match r.material with
  | some m => some m
  | none => defaultMat

/-- A renderable is eligible (not skipped) when its mesh is non-null and its
material is resolvable. -/
def eligible (defaultMat : Option MatRef) (r : RenderComponent) : Bool :=
  r.mesh.isSome && (resolvedMaterial defaultMat r).isSome

/-- An eligible renderable can be processed without a null dereference when its
resolved material holds a shader program and it is owned by a game object. -/
def runnable (shaderOf : MatRef → Option ShaderRef) (defaultMat : Option MatRef)
    (r : RenderComponent) : Bool :=
  !eligible defaultMat r ||
    (((resolvedMaterial defaultMat r).bind shaderOf).isSome && r.gameObject.isSome)

/-- The meshes drawn by a trace, in order. -/
def drawCalls (evs : List Event) : List MeshRef :=
  evs.filterMap fun e =>
    match e with
    | Event.meshDraw m => some m
    | _ => none

/-- The first state of the loop: no material bound. -/
def noMaterialBound : BindState := { currentMat := none, shader := none }

/-- The events of one non-skipped renderable `r` with mesh `mesh`, resolved
material `m` holding shader `sh` and owner `o`, when `cur` is the material bound
at entry: the default is installed if `r` had no material, the material is bound
if it differs from `cur`, then the instance uniforms are updated and the mesh is
drawn. -/
def stepEvents (vp : glm.mat4) (cur : Option MatRef) (r : RenderComponent) (mesh : MeshRef)
    (m : MatRef) (sh : ShaderRef) (o : GameObject) : List Event :=
  (if r.material = none then [Event.setMaterial m] else []) ++
  (if some m ≠ cur then [Event.shaderBind sh, Event.materialApply m] else []) ++
  [Event.instanceUpdate (instanceData vp o), Event.meshDraw mesh]

/-- The shader/material bind events of a trace (`shader->Bind()` and
`material->Apply()`), in order. -/
def bindCalls (evs : List Event) : List Event :=
  evs.filter fun e =>
    match e with
    | Event.shaderBind _ => true
    | Event.materialApply _ => true
    | _ => false

/-- Each renderable of the list paired with the material bound when the loop
reaches it: `cur` for the first, the resolved material of its predecessor for the
others. -/
def withPrevious (defaultMat : Option MatRef) :
    Option MatRef → List RenderComponent → List (Option MatRef × RenderComponent)
  | _, [] => []
  | cur, r :: rs => (cur, r) :: withPrevious defaultMat (resolvedMaterial defaultMat r) rs

/-- Instance-level events: the instance uniform update and the mesh draw. -/
def isInstanceEvent : Event → Bool
  | Event.instanceUpdate _ => true
  | Event.meshDraw _ => true
  | _ => false

/-- Recognizer of traces in which every instance update is immediately followed by
a mesh draw and every mesh draw is immediately preceded by an instance update. -/
def updateDrawPaired : List Event → Bool
  | [] => true
  | Event.instanceUpdate _ :: Event.meshDraw _ :: rest => updateDrawPaired rest
  | Event.instanceUpdate _ :: _ => false
  | Event.meshDraw _ :: _ => false
  | _ :: rest => updateDrawPaired rest

/-- The events `seg` are those of a drawn renderable `p.2` reached with the
material `p.1` bound: the default material is installed if the renderable had
none, the resolved material is bound exactly when it differs from `p.1`, then the
instance uniforms of the owner are updated and the mesh is drawn. -/
def isSegmentOf (shaderOf : MatRef → Option ShaderRef) (vp : glm.mat4) (d : Option MatRef)
    (p : Option MatRef × RenderComponent) (seg : List Event) : Prop :=
  ∃ mesh m o binds, p.2.mesh = some mesh ∧ resolvedMaterial d p.2 = some m ∧
    p.2.gameObject = some o ∧
    (some m = p.1 → binds = []) ∧
    (some m ≠ p.1 → ∃ sh, shaderOf m = some sh ∧
      binds = [Event.shaderBind sh, Event.materialApply m]) ∧
    seg = (if p.2.material = none then [Event.setMaterial m] else []) ++ binds ++
      [Event.instanceUpdate (instanceData vp o), Event.meshDraw mesh]

/-- The scene has an active camera attached to a game object. -/
def cameraReady (scene : Scene) : Bool :=
  match scene.MainCamera with
  | some camera => camera.gameObject.isSome
  | none => false

/-! ### Concrete inputs used to exercise the theorems -/

/-- A game object at the origin with the identity transform. -/
def exampleObject : GameObject := { transform := 1, position := (0, 0, 0) }

/-- A camera attached to `exampleObject`. -/
def exampleCamera : Camera :=
  { gameObject := some exampleObject, projection := 1, view := 1, viewProjection := 1 }

/-- A loaded layer with an 800x600 target. -/
def exampleLayer : RenderLayer :=
  { primaryFBO := { size := { x := 800, y := 600 } }, renderFlags := 1 }

/-- A clock reading. -/
def exampleTiming : Timing := { timeSinceSceneLoad := 0, deltaTime := 0 }

/-- Every material of the example scenes holds a shader program. -/
def exampleShaderOf : MatRef → Option ShaderRef := fun m => some (m + 100)

/-- A scene with default material 9 and renderables: one without mesh, one
without material, one with mesh 2 and material 7. -/
def sceneMixed : Scene :=
  { MainCamera := some exampleCamera
    DefaultMaterial := some 9
    skyboxTexture := none
    colorLUT := some 3
    shaderOf := exampleShaderOf
    renderables :=
      [{ mesh := none, material := some 7, gameObject := some exampleObject },
       { mesh := some 1, material := none, gameObject := some exampleObject },
       { mesh := some 2, material := some 7, gameObject := some exampleObject }] }

/-- A renderable without mesh and without material. -/
def renderableNoMeshNoMaterial : RenderComponent :=
  { mesh := none, material := none, gameObject := some exampleObject }

/-- A renderable with mesh 5 and without material. -/
def renderableNoMaterial : RenderComponent :=
  { mesh := some 5, material := none, gameObject := some exampleObject }

/-- A scene with default material 9 whose only renderable has neither mesh nor
material. -/
def sceneNoMesh : Scene :=
  { MainCamera := some exampleCamera
    DefaultMaterial := some 9
    skyboxTexture := none
    colorLUT := none
    shaderOf := exampleShaderOf
    renderables := [renderableNoMeshNoMaterial] }

/-- A scene whose only renderable has a mesh, an owner and material 7, which holds
a null shader program. -/
def sceneNullShader : Scene :=
  { MainCamera := some exampleCamera
    DefaultMaterial := none
    skyboxTexture := none
    colorLUT := none
    shaderOf := fun _ => none
    renderables := [{ mesh := some 1, material := some 7, gameObject := some exampleObject }] }

/-- A scene without default material whose second renderable has a mesh and a
material but a null owning game object. -/
def sceneNullOwner : Scene :=
  { MainCamera := some exampleCamera
    DefaultMaterial := none
    skyboxTexture := none
    colorLUT := none
    shaderOf := exampleShaderOf
    renderables :=
      [{ mesh := some 1, material := some 7, gameObject := some exampleObject },
       { mesh := some 2, material := some 7, gameObject := none }] }

/-- A scene without default material and renderables: one without mesh, one with
a mesh and without material. -/
def sceneSkipBoth : Scene :=
  { MainCamera := some exampleCamera
    DefaultMaterial := none
    skyboxTexture := none
    colorLUT := none
    shaderOf := exampleShaderOf
    renderables :=
      [{ mesh := none, material := some 7, gameObject := some exampleObject },
       { mesh := some 5, material := none, gameObject := some exampleObject }] }

/-- An invertible model matrix whose bottom row is not (0, 0, 0, w). -/
def modelProjective : glm.mat4 := !![1, 0, 0, 1; 0, 1, 0, 0; 0, 0, 1, 0; 1, 0, 0, 2]

/-- The inverse of `modelProjective`. -/
def modelProjectiveInv : glm.mat4 := !![2, 0, 0, -1; 0, 1, 0, 0; 0, 0, 1, 0; -1, 0, 0, 1]

/-- An affine model matrix: non-uniform scale (2, 3, 4) and translation (5, 6, 7). -/
def modelAffine : glm.mat4 := !![2, 0, 0, 5; 0, 3, 0, 6; 0, 0, 4, 7; 0, 0, 0, 1]

/-- The inverse of `modelAffine`. -/
def modelAffineInv : glm.mat4 :=
  !![1/2, 0, 0, -5/2; 0, 1/3, 0, -2; 0, 0, 1/4, -7/4; 0, 0, 0, 1]

end RenderLayer

namespace Movement

/-- A unit-mass body given by its velocity: an impulse adds to the velocity. -/
def unitMassBody : RigidBodyOps glm.vec3 :=
  { GetLinearVelocity := fun v => v
    ApplyImpulse := fun v i => (v.1 + i.1, v.2.1 + i.2.1, v.2.2 + i.2.2) }

/-- A moving component with impulse 1/10 on a body at velocity (3, 0, 0). -/
def exampleMovement : Movement glm.vec3 :=
  { is_moving := true, _impulse := 1 / 10, body := (3, 0, 0), rotation := (0, 0, 0) }

/-- The key-A impulse is applied: key A is down and the velocity x of the body at
entry is at most 20. -/
def firstImpulseApplied {β : Type} (ops : RigidBodyOps β) (keyA : Int) (self : Movement β) :
    Bool :=
  decide (keyA ≠ GLFW_RELEASE ∧ (ops.GetLinearVelocity self.body).1 ≤ 20)

/-- The body when the key-D test runs: after the key-A impulse if it was applied,
as at entry otherwise. -/
def bodyAfterFirst {β : Type} (ops : RigidBodyOps β) (keyA : Int) (self : Movement β) : β :=
  if firstImpulseApplied ops keyA self = true then
    ops.ApplyImpulse self.body (-self._impulse, 0, 0)
  else self.body

/-- The key-D impulse is applied: key D is down and the velocity x the body
reports when the key-D test runs is at least -20. -/
def secondImpulseApplied {β : Type} (ops : RigidBodyOps β) (keyA keyD : Int)
    (self : Movement β) : Bool :=
  decide (keyD ≠ GLFW_RELEASE ∧
    (ops.GetLinearVelocity (bodyAfterFirst ops keyA self)).1 ≥ -20)

/-- A component with impulse 1/10 on a body at velocity (-19.95, 0, 0). -/
def movementNearLowerBound : Movement glm.vec3 :=
  { is_moving := false, _impulse := 1 / 10, body := (-399 / 20, 0, 0), rotation := (0, 0, 0) }

end Movement

/-! ## Lemmas on the loop body -/

namespace RenderLayer

theorem renderEach_skip (shaderOf : MatRef → Option ShaderRef) (vp : glm.mat4)
    (d : Option MatRef) (st : BindState) (r : RenderComponent)
    (h : eligible d r = false) :
    renderEach shaderOf vp d st r = .ok (st, r, []) := by
  obtain ⟨mesh, mat, obj⟩ := r
  cases mesh with
  | none => rfl
  | some mesh =>
    cases mat with
    | some m => simp [eligible, resolvedMaterial] at h
    | none =>
      cases d with
      | some dm => simp [eligible, resolvedMaterial] at h
      | none => rfl

theorem renderEach_draw (shaderOf : MatRef → Option ShaderRef) (vp : glm.mat4)
    (d : Option MatRef) (st : BindState) (r : RenderComponent)
    (mesh : MeshRef) (m : MatRef) (sh : ShaderRef) (o : GameObject)
    (hmesh : r.mesh = some mesh) (hmat : resolvedMaterial d r = some m)
    (hsh : shaderOf m = some sh) (hobj : r.gameObject = some o) :
    renderEach shaderOf vp d st r =
      .ok (if some m ≠ st.currentMat then { currentMat := some m, shader := some sh } else st,
           { r with material := some m },
           stepEvents vp st.currentMat r mesh m sh o) := by
  obtain ⟨rmesh, rmat, robj⟩ := r
  simp only at hmesh hobj
  subst hmesh hobj
  cases rmat with
  | some m0 =>
    simp only [resolvedMaterial, Option.some.injEq] at hmat
    subst hmat
    by_cases hc : st.currentMat = some m0
    · simp [renderEach, materialFallback, bindMaterial, stepEvents, hc]
    · have hc2 : ¬ some m0 = st.currentMat := fun e => hc e.symm
      simp [renderEach, materialFallback, bindMaterial, stepEvents, hc, hc2, hsh]
  | none =>
    simp only [resolvedMaterial] at hmat
    subst hmat
    by_cases hc : st.currentMat = some m
    · simp [renderEach, materialFallback, bindMaterial, stepEvents, hc]
    · have hc2 : ¬ some m = st.currentMat := fun e => hc e.symm
      simp [renderEach, materialFallback, bindMaterial, stepEvents, hc, hc2, hsh]

/-- What a runnable, eligible renderable provides. -/
theorem runnable_eligible (shaderOf : MatRef → Option ShaderRef) (d : Option MatRef)
    (r : RenderComponent) (he : eligible d r = true) (hr : runnable shaderOf d r = true) :
    ∃ mesh m sh o, r.mesh = some mesh ∧ resolvedMaterial d r = some m ∧
      shaderOf m = some sh ∧ r.gameObject = some o := by
  simp only [runnable, he, Bool.not_true, Bool.false_or, Bool.and_eq_true] at hr
  simp only [eligible, Bool.and_eq_true] at he
  obtain ⟨hm, hres⟩ := he
  obtain ⟨hsh, ho⟩ := hr
  obtain ⟨mesh, hmesh⟩ := Option.isSome_iff_exists.mp hm
  obtain ⟨m, hmat⟩ := Option.isSome_iff_exists.mp hres
  obtain ⟨o, hobj⟩ := Option.isSome_iff_exists.mp ho
  rw [hmat] at hsh
  obtain ⟨sh, hs⟩ := Option.isSome_iff_exists.mp hsh
  exact ⟨mesh, m, sh, o, hmesh, hmat, hs, hobj⟩

end RenderLayer

namespace RenderLayer

theorem renderLoop_cons_skip (shaderOf : MatRef → Option ShaderRef) (vp : glm.mat4)
    (d : Option MatRef) (st : BindState) (r : RenderComponent) (rs : List RenderComponent)
    (h : eligible d r = false) :
    renderLoop shaderOf vp d st (r :: rs) =
      match renderLoop shaderOf vp d st rs with
      | .error e => .error e
      | .ok (st2, rs2, evs2) => .ok (st2, r :: rs2, evs2) := by
  rw [renderLoop, renderEach_skip shaderOf vp d st r h]
  simp only [List.nil_append]

theorem renderLoop_cons_draw (shaderOf : MatRef → Option ShaderRef) (vp : glm.mat4)
    (d : Option MatRef) (st : BindState) (r : RenderComponent) (rs : List RenderComponent)
    (mesh : MeshRef) (m : MatRef) (sh : ShaderRef) (o : GameObject)
    (hmesh : r.mesh = some mesh) (hmat : resolvedMaterial d r = some m)
    (hsh : shaderOf m = some sh) (hobj : r.gameObject = some o) :
    renderLoop shaderOf vp d st (r :: rs) =
      match renderLoop shaderOf vp d
          (if some m ≠ st.currentMat then { currentMat := some m, shader := some sh } else st)
          rs with
      | .error e => .error e
      | .ok (st2, rs2, evs2) =>
        .ok (st2, { r with material := some m } :: rs2,
             stepEvents vp st.currentMat r mesh m sh o ++ evs2) := by
  rw [renderLoop, renderEach_draw shaderOf vp d st r mesh m sh o hmesh hmat hsh hobj]

theorem OnRender_of_camera (layer : RenderLayer) (timing : Timing) (scene : Scene)
    (h : cameraReady scene = true) :
    ∃ camera camObject, scene.MainCamera = some camera ∧ camera.gameObject = some camObject ∧
      OnRender layer timing scene =
        match renderLoop scene.shaderOf camera.viewProjection scene.DefaultMaterial
            noMaterialBound scene.renderables with
        | .error e => .error e
        | .ok (_, rs, evs) =>
          .ok ({ scene with renderables := rs },
               frameHeader layer timing scene camera camObject ++ evs ++
                 [Event.drawSkybox, Event.vaoUnbind]) := by
  unfold cameraReady at h
  cases hc : scene.MainCamera with
  | none => simp [hc] at h
  | some camera =>
    simp only [hc] at h
    obtain ⟨co, hco⟩ := Option.isSome_iff_exists.mp h
    refine ⟨camera, co, rfl, hco, ?_⟩
    simp only [OnRender, hc, hco, noMaterialBound]

end RenderLayer

namespace RenderLayer

/-- Induction principle for runs of the loop over runnable renderables: a
property of (bound material at entry, renderables, events) that holds for the
empty list, is preserved by a skipped renderable and is preserved by a drawn
renderable holds of the run, which completes. -/
theorem renderLoop_rec (shaderOf : MatRef → Option ShaderRef) (vp : glm.mat4)
    (d : Option MatRef) (P : Option MatRef → List RenderComponent → List Event → Prop)
    (hnil : ∀ cur, P cur [] [])
    (hskip : ∀ cur r rs evs, eligible d r = false → P cur rs evs → P cur (r :: rs) evs)
    (hdraw : ∀ cur r rs evs mesh m sh o, r.mesh = some mesh → resolvedMaterial d r = some m →
      shaderOf m = some sh → r.gameObject = some o → P (some m) rs evs →
      P cur (r :: rs) (stepEvents vp cur r mesh m sh o ++ evs))
    (rs : List RenderComponent) :
    ∀ st : BindState, (∀ r ∈ rs, runnable shaderOf d r = true) →
      ∃ st1 rs1 evs, renderLoop shaderOf vp d st rs = .ok (st1, rs1, evs) ∧
        P st.currentMat rs evs := by
  induction rs with
  | nil =>
    intro st _
    exact ⟨st, [], [], rfl, hnil _⟩
  | cons r rs ih =>
    intro st hrun
    have htail : ∀ x ∈ rs, runnable shaderOf d x = true :=
      fun x hx => hrun x (List.mem_cons_of_mem _ hx)
    cases he : eligible d r with
    | false =>
      obtain ⟨st1, rs1, evs, hloop, hP⟩ := ih st htail
      refine ⟨st1, r :: rs1, evs, ?_, hskip _ _ _ _ he hP⟩
      rw [renderLoop_cons_skip shaderOf vp d st r rs he, hloop]
    | true =>
      obtain ⟨mesh, m, sh, o, hmesh, hmat, hsh, hobj⟩ :=
        runnable_eligible shaderOf d r he (hrun r (List.mem_cons_self _ _))
      obtain ⟨st1, rs1, evs, hloop, hP⟩ :=
        ih (if some m ≠ st.currentMat then { currentMat := some m, shader := some sh } else st)
          htail
      have hcur : (if some m ≠ st.currentMat then
          ({ currentMat := some m, shader := some sh } : BindState) else st).currentMat =
          some m := by
        by_cases hc : some m = st.currentMat
        · simp [hc.symm]
        · simp [hc]
      rw [hcur] at hP
      refine ⟨st1, { r with material := some m } :: rs1, _, ?_,
        hdraw st.currentMat r rs evs mesh m sh o hmesh hmat hsh hobj hP⟩
      rw [renderLoop_cons_draw shaderOf vp d st r rs mesh m sh o hmesh hmat hsh hobj, hloop]

theorem drawCalls_append (xs ys : List Event) :
    drawCalls (xs ++ ys) = drawCalls xs ++ drawCalls ys := by
  simp [drawCalls, List.filterMap_append]

theorem drawCalls_frameHeader (layer : RenderLayer) (timing : Timing) (scene : Scene)
    (camera : Camera) (camObject : GameObject) :
    drawCalls (frameHeader layer timing scene camera camObject) = [] := by
  unfold frameHeader bindGlobals
  cases scene.skyboxTexture <;> cases scene.colorLUT <;> simp [drawCalls]

/-- Draw calls of a completed loop over runnable renderables. -/
theorem renderLoop_drawCalls (shaderOf : MatRef → Option ShaderRef) (vp : glm.mat4)
    (d : Option MatRef) (rs : List RenderComponent) (st : BindState)
    (hrun : ∀ r ∈ rs, runnable shaderOf d r = true) :
    ∃ st1 rs1 evs, renderLoop shaderOf vp d st rs = .ok (st1, rs1, evs) ∧
      drawCalls evs = (rs.filter (eligible d)).filterMap (fun r => r.mesh) ∧
      (drawCalls evs).length = (rs.filter (eligible d)).length := by
  refine renderLoop_rec shaderOf vp d
    (fun _ rs evs => drawCalls evs = (rs.filter (eligible d)).filterMap (fun r => r.mesh) ∧
      (drawCalls evs).length = (rs.filter (eligible d)).length) ?_ ?_ ?_ rs st hrun
  · intro _
    simp [drawCalls]
  · intro cur r rs evs he hP
    simpa [List.filter_cons, he] using hP
  · intro cur r rs evs mesh m sh o hmesh hmat hsh hobj hP
    have he : eligible d r = true := by simp [eligible, hmesh, hmat]
    have hpre : drawCalls (stepEvents vp cur r mesh m sh o) = [mesh] := by
      unfold stepEvents
      by_cases hc : some m = cur <;> cases r.material <;> simp [drawCalls, hc]
    rw [drawCalls_append, hpre]
    refine ⟨?_, ?_⟩
    · simp [List.filter_cons, he, hmesh, hP.1]
    · rw [List.filter_cons, if_pos he]
      simp only [List.cons_append, List.nil_append, List.length_cons, hP.2]

end RenderLayer

namespace RenderLayer

end RenderLayer

namespace RenderLayer

end RenderLayer

namespace RenderLayer

/-- Inserting a skipped renderable anywhere in the list leaves the events and the
final bind state of the loop as they are; the renderable comes back unchanged. -/
theorem renderLoop_insert_skip (shaderOf : MatRef → Option ShaderRef) (vp : glm.mat4)
    (d : Option MatRef) (r : RenderComponent) (after : List RenderComponent)
    (h : eligible d r = false) (before : List RenderComponent) :
    ∀ st : BindState,
      renderLoop shaderOf vp d st (before ++ r :: after) =
        match renderLoop shaderOf vp d st (before ++ after) with
        | .error e => .error e
        | .ok (st2, rs2, evs) =>
          .ok (st2, rs2.take before.length ++ r :: rs2.drop before.length, evs) := by
  induction before with
  | nil =>
    intro st
    rw [List.nil_append, List.nil_append, renderLoop_cons_skip shaderOf vp d st r after h]
    cases renderLoop shaderOf vp d st after with
    | error e => rfl
    | ok res => obtain ⟨st2, rs2, evs2⟩ := res; simp
  | cons b before ih =>
    intro st
    rw [List.cons_append, List.cons_append, renderLoop, renderLoop]
    cases renderEach shaderOf vp d st b with
    | error e => rfl
    | ok res =>
      obtain ⟨st1, b1, evs1⟩ := res
      simp only [ih st1]
      cases renderLoop shaderOf vp d st1 (before ++ after) with
      | error e => rfl
      | ok res2 => obtain ⟨st2, rs2, evs2⟩ := res2; simp

end RenderLayer

namespace RenderLayer

theorem updateDrawPaired_append_left (pre rest : List Event)
    (h : ∀ e ∈ pre, isInstanceEvent e = false) :
    updateDrawPaired (pre ++ rest) = updateDrawPaired rest := by
  induction pre with
  | nil => rfl
  | cons e pre ih =>
    have he : isInstanceEvent e = false := h e (List.mem_cons_self _ _)
    have ih2 := ih (fun x hx => h x (List.mem_cons_of_mem _ hx))
    cases e <;> simp_all [updateDrawPaired, isInstanceEvent]

theorem updateDrawPaired_segment (pre rest : List Event) (u : InstanceLevelUniforms)
    (mesh : MeshRef) (h : ∀ e ∈ pre, isInstanceEvent e = false) :
    updateDrawPaired ((pre ++ [Event.instanceUpdate u, Event.meshDraw mesh]) ++ rest) =
      updateDrawPaired rest := by
  rw [List.append_assoc, updateDrawPaired_append_left _ _ h]
  simp [updateDrawPaired]

theorem isInstanceEvent_frameHeader (layer : RenderLayer) (timing : Timing) (scene : Scene)
    (camera : Camera) (camObject : GameObject) :
    ∀ e ∈ frameHeader layer timing scene camera camObject, isInstanceEvent e = false := by
  unfold frameHeader bindGlobals
  cases scene.skyboxTexture <;> cases scene.colorLUT <;> simp [isInstanceEvent]

end RenderLayer

namespace RenderLayer

/-- A completed call of the loop body, entered with a bound material (if any)
that holds a shader, was on a runnable renderable and keeps that invariant. -/
theorem renderEach_ok_runnable (shaderOf : MatRef → Option ShaderRef) (vp : glm.mat4)
    (d : Option MatRef) (st st1 : BindState) (r r1 : RenderComponent) (evs : List Event)
    (hinv : ∀ m, st.currentMat = some m → (shaderOf m).isSome = true)
    (h : renderEach shaderOf vp d st r = .ok (st1, r1, evs)) :
    runnable shaderOf d r = true ∧ ∀ m, st1.currentMat = some m → (shaderOf m).isSome = true := by
  cases he : eligible d r with
  | false =>
    rw [renderEach_skip shaderOf vp d st r he] at h
    simp only [Except.ok.injEq, Prod.mk.injEq] at h
    obtain ⟨hst, _, _⟩ := h
    subst hst
    exact ⟨by simp [runnable, he], hinv⟩
  | true =>
    have he2 := he
    simp only [eligible, Bool.and_eq_true] at he2
    obtain ⟨mesh, hmesh⟩ := Option.isSome_iff_exists.mp he2.1
    obtain ⟨m, hmat⟩ := Option.isSome_iff_exists.mp he2.2
    have hfall : ∃ r2 evs0, materialFallback d r = some (m, r2, evs0) ∧
        r2.gameObject = r.gameObject := by
      unfold resolvedMaterial at hmat
      unfold materialFallback
      cases hm : r.material with
      | some m0 =>
        rw [hm] at hmat
        simp only [Option.some.injEq] at hmat
        subst hmat
        exact ⟨_, _, rfl, rfl⟩
      | none =>
        rw [hm] at hmat
        subst hmat
        exact ⟨_, _, rfl, rfl⟩
    obtain ⟨r2, evs0, hf, hobj2⟩ := hfall
    unfold renderEach at h
    simp only [hmesh, hf] at h
    cases hsh : shaderOf m with
    | none =>
      exfalso
      by_cases hc : some m = st.currentMat
      · have := hinv m hc.symm
        simp [hsh] at this
      · simp [bindMaterial, hc, hsh] at h
    | some sh =>
      cases ho : r.gameObject with
      | none =>
        exfalso
        rw [← hobj2] at ho
        by_cases hc : some m = st.currentMat
        · simp [bindMaterial, hc, ho] at h
        · simp [bindMaterial, hc, hsh, ho] at h
      | some o =>
        refine ⟨by simp [runnable, he, hmat, hsh, ho], ?_⟩
        rw [← hobj2] at ho
        by_cases hc : some m = st.currentMat
        · simp only [bindMaterial, hc, ne_eq, not_true_eq_false, if_false, ho, Except.ok.injEq,
            Prod.mk.injEq] at h
          obtain ⟨hst, _, _⟩ := h
          subst hst
          exact hinv
        · simp only [bindMaterial, ne_eq, hc, not_false_eq_true, if_true, hsh, ho,
            Except.ok.injEq, Prod.mk.injEq] at h
          obtain ⟨hst, _, _⟩ := h
          subst hst
          intro m2 hm2
          simp only [Option.some.injEq] at hm2
          subst hm2
          simp [hsh]

/-- A completed loop, entered with a bound material (if any) that holds a shader,
ran over runnable renderables only. -/
theorem renderLoop_ok_runnable (shaderOf : MatRef → Option ShaderRef) (vp : glm.mat4)
    (d : Option MatRef) (rs : List RenderComponent) :
    ∀ (st : BindState) (res : BindState × List RenderComponent × List Event),
      (∀ m, st.currentMat = some m → (shaderOf m).isSome = true) →
      renderLoop shaderOf vp d st rs = .ok res →
      ∀ r ∈ rs, runnable shaderOf d r = true := by
  induction rs with
  | nil => intro _ _ _ _ r hr; simp at hr
  | cons r0 rs ih =>
    intro st res hinv h
    rw [renderLoop] at h
    cases h1 : renderEach shaderOf vp d st r0 with
    | error e => simp [h1] at h
    | ok res1 =>
      obtain ⟨st1, r1, evs1⟩ := res1
      obtain ⟨hr0, hinv1⟩ := renderEach_ok_runnable shaderOf vp d st st1 r0 r1 evs1 hinv h1
      simp only [h1] at h
      cases h2 : renderLoop shaderOf vp d st1 rs with
      | error e => simp [h2] at h
      | ok res2 =>
        intro r hr
        rcases List.mem_cons.mp hr with rfl | hr
        · exact hr0
        · exact ih st1 res2 hinv1 h2 r hr

end RenderLayer

/-! ## Lemmas on the normal matrix -/

namespace glm

theorem inverse_eq_inv {n : Nat} (M : Matrix (Fin n) (Fin n) ℚ) : inverse M = M⁻¹ := by
  unfold inverse
  rw [Matrix.inv_def, Ring.inverse_eq_inv']

/-- For an invertible matrix with bottom row (0, 0, 0, w), the upper-left block of
the inverse is a left inverse of the upper-left block. -/
theorem toMat3_inv_mul_toMat3 (M : mat4) (hdet : M.det ≠ 0)
    (hrow : ∀ j : Fin 3, M (Fin.last 3) (Fin.castSucc j) = 0) :
    toMat3 M⁻¹ * toMat3 M = 1 := by
  have hNM : M⁻¹ * M = 1 := Matrix.nonsing_inv_mul M (isUnit_iff_ne_zero.mpr hdet)
  ext i j
  have h := congrFun (congrFun hNM (Fin.castSucc i)) (Fin.castSucc j)
  rw [Matrix.mul_apply, Fin.sum_univ_castSucc, hrow j, mul_zero, add_zero] at h
  rw [Matrix.mul_apply]
  simp only [toMat3]
  rw [h]
  simp [Matrix.one_apply]

theorem toMat3_inverse_of_affine (M : mat4) (hdet : M.det ≠ 0)
    (hrow : ∀ j : Fin 3, M (Fin.last 3) (Fin.castSucc j) = 0) :
    toMat3 (inverse M) = inverse (toMat3 M) := by
  rw [inverse_eq_inv, inverse_eq_inv]
  exact (Matrix.inv_eq_left_inv (toMat3_inv_mul_toMat3 M hdet hrow)).symm

end glm

namespace RenderLayer

theorem modelProjective_mul_inv : modelProjective * modelProjectiveInv = 1 := by
  ext i j
  fin_cases i <;> fin_cases j <;>
    simp [modelProjective, modelProjectiveInv, Matrix.mul_apply, Fin.sum_univ_four,
      Matrix.one_apply, Matrix.vecHead, Matrix.vecTail] <;> norm_num

theorem toMat3_modelProjective : glm.toMat3 modelProjective = 1 := by
  ext i j
  fin_cases i <;> fin_cases j <;>
    simp [modelProjective, glm.toMat3, Matrix.one_apply, Matrix.vecHead, Matrix.vecTail] <;> rfl

theorem modelAffine_mul_inv : modelAffine * modelAffineInv = 1 := by
  ext i j
  fin_cases i <;> fin_cases j <;>
    simp [modelAffine, modelAffineInv, Matrix.mul_apply, Fin.sum_univ_four,
      Matrix.one_apply, Matrix.vecHead, Matrix.vecTail] <;> norm_num

theorem modelAffine_bottom_row :
    ∀ j : Fin 3, modelAffine (Fin.last 3) (Fin.castSucc j) = 0 := by
  intro j
  fin_cases j <;> simp [modelAffine] <;> rfl

end RenderLayer

/-! ## Lemmas on the trace kept up to a null dereference -/

namespace RenderLayer

theorem renderEach_eq_trace (shaderOf : MatRef → Option ShaderRef) (vp : glm.mat4)
    (d : Option MatRef) (st : BindState) (r : RenderComponent) :
    renderEach shaderOf vp d st r =
      match renderEachTrace shaderOf vp d st r with
      | (evs, .ok (st1, r1)) => .ok (st1, r1, evs)
      | (_, .error e) => .error e := by
  unfold renderEach renderEachTrace
  cases r.mesh with
  | none => rfl
  | some mesh =>
    simp only
    cases materialFallback d r with
    | none => rfl
    | some res =>
      obtain ⟨m, r1, evs0⟩ := res
      simp only
      cases bindMaterial shaderOf st m with
      | error e => rfl
      | ok res2 =>
        obtain ⟨st1, evs1⟩ := res2
        simp only
        cases r1.gameObject with
        | none => rfl
        | some o => rfl

theorem renderLoop_eq_trace (shaderOf : MatRef → Option ShaderRef) (vp : glm.mat4)
    (d : Option MatRef) (rs : List RenderComponent) :
    ∀ st : BindState,
      renderLoop shaderOf vp d st rs =
        match renderLoopTrace shaderOf vp d st rs with
        | (evs, .ok (st1, rs1)) => .ok (st1, rs1, evs)
        | (_, .error e) => .error e := by
  induction rs with
  | nil => intro st; rfl
  | cons r rs ih =>
    intro st
    rw [renderLoop, renderLoopTrace, renderEach_eq_trace]
    rcases h1 : renderEachTrace shaderOf vp d st r with ⟨evs1, res1⟩
    cases res1 with
    | error e => rfl
    | ok p1 =>
      obtain ⟨st1, r1⟩ := p1
      simp only
      rw [ih st1]
      rcases h2 : renderLoopTrace shaderOf vp d st1 rs with ⟨evs2, res2⟩
      cases res2 with
      | error e => rfl
      | ok p2 => obtain ⟨st2, rs2⟩ := p2; rfl

/-- A completed pass has the trace kept by `OnRenderTrace`. -/
theorem OnRender_eq_trace (layer : RenderLayer) (timing : Timing) (scene : Scene) :
    OnRender layer timing scene =
      match OnRenderTrace layer timing scene with
      | (evs, .ok scene1) => .ok (scene1, evs)
      | (_, .error e) => .error e := by
  unfold OnRender OnRenderTrace
  cases scene.MainCamera with
  | none => rfl
  | some camera =>
    simp only
    cases camera.gameObject with
    | none => rfl
    | some camObject =>
      simp only
      rw [renderLoop_eq_trace]
      rcases h : renderLoopTrace scene.shaderOf camera.viewProjection scene.DefaultMaterial
        { currentMat := none, shader := none } scene.renderables with ⟨evs, res⟩
      cases res with
      | error e => rfl
      | ok p => obtain ⟨st1, rs1⟩ := p; rfl

/-- The three ways the lambda body ends: the renderable is skipped; it is drawn,
with the events of a segment; or a null pointer is dereferenced before any
instance update or draw. -/
theorem renderEachTrace_cases (shaderOf : MatRef → Option ShaderRef) (vp : glm.mat4)
    (d : Option MatRef) (st : BindState) (r : RenderComponent) :
    (eligible d r = false ∧ renderEachTrace shaderOf vp d st r = ([], .ok (st, r))) ∨
    (eligible d r = true ∧ ∃ st1 r1 seg,
      renderEachTrace shaderOf vp d st r = (seg, .ok (st1, r1)) ∧
      st1.currentMat = resolvedMaterial d r ∧
      isSegmentOf shaderOf vp d (st.currentMat, r) seg) ∨
    (eligible d r = true ∧ ∃ pre e,
      renderEachTrace shaderOf vp d st r = (pre, .error e) ∧
      ∀ ev ∈ pre, isInstanceEvent ev = false) := by
  cases he : eligible d r with
  | false =>
    left
    refine ⟨rfl, ?_⟩
    have h := renderEach_skip shaderOf vp d st r he
    rw [renderEach_eq_trace] at h
    rcases h1 : renderEachTrace shaderOf vp d st r with ⟨evs1, res1⟩
    rw [h1] at h
    cases res1 with
    | error e => simp at h
    | ok p1 =>
      obtain ⟨st1, r1⟩ := p1
      simp only [Except.ok.injEq, Prod.mk.injEq] at h
      obtain ⟨h1, h2, h3⟩ := h
      subst h1 h2 h3
      rfl
  | true =>
    right
    have he2 := he
    simp only [eligible, Bool.and_eq_true] at he2
    obtain ⟨mesh, hmesh⟩ := Option.isSome_iff_exists.mp he2.1
    obtain ⟨m, hmat⟩ := Option.isSome_iff_exists.mp he2.2
    have hfall : materialFallback d r =
        some (m, { r with material := some m },
          if r.material = none then [Event.setMaterial m] else []) := by
      unfold resolvedMaterial at hmat
      unfold materialFallback
      cases hm : r.material with
      | some m0 =>
        rw [hm] at hmat
        simp only [Option.some.injEq] at hmat
        subst hmat
        obtain ⟨rmesh, rmat, robj⟩ := r
        simp only at hm
        subst hm
        simp
      | none =>
        rw [hm] at hmat
        subst hmat
        simp
    have hnoset : ∀ ev ∈ (if r.material = none then [Event.setMaterial m] else []),
        isInstanceEvent ev = false := by
      intro ev hev
      split_ifs at hev
      · simp only [List.mem_singleton] at hev
        subst hev
        rfl
      · simp at hev
    unfold renderEachTrace
    simp only [hmesh, hfall]
    by_cases hc : some m = st.currentMat
    · have hb : bindMaterial shaderOf st m = .ok (st, []) := by simp [bindMaterial, hc]
      simp only [hb]
      cases ho : r.gameObject with
      | none =>
        right
        refine ⟨trivial, _, _, rfl, ?_⟩
        simpa using hnoset
      | some o =>
        left
        refine ⟨trivial, _, _, _, rfl, by rw [hmat, hc], mesh, m, o, [], hmesh, hmat, ho,
          fun _ => rfl, fun h => absurd hc h, rfl⟩
    · cases hsh : shaderOf m with
      | none =>
        have hb : bindMaterial shaderOf st m = .error Fault.nullShader := by
          simp [bindMaterial, hc, hsh]
        simp only [hb]
        right
        exact ⟨trivial, _, _, rfl, hnoset⟩
      | some sh =>
        have hb : bindMaterial shaderOf st m =
            .ok ({ currentMat := some m, shader := some sh },
              [Event.shaderBind sh, Event.materialApply m]) := by
          simp [bindMaterial, hc, hsh]
        simp only [hb]
        cases ho : r.gameObject with
        | none =>
          right
          refine ⟨trivial, _, _, rfl, ?_⟩
          intro ev hev
          rcases List.mem_append.mp hev with h | h
          · exact hnoset ev h
          · simp only [List.mem_cons, List.mem_singleton, List.not_mem_nil, or_false] at h
            rcases h with rfl | rfl <;> rfl
        | some o =>
          left
          refine ⟨trivial, _, _, _, rfl, by rw [hmat], mesh, m, o,
            [Event.shaderBind sh, Event.materialApply m], hmesh, hmat, ho,
            fun h => absurd h hc, fun _ => ⟨sh, hsh, rfl⟩, rfl⟩

end RenderLayer

namespace RenderLayer

theorem renderLoopTrace_cons_ok (shaderOf : MatRef → Option ShaderRef) (vp : glm.mat4)
    (d : Option MatRef) (st st1 : BindState) (r r1 : RenderComponent)
    (rs : List RenderComponent) (evs1 : List Event)
    (h : renderEachTrace shaderOf vp d st r = (evs1, .ok (st1, r1))) :
    (renderLoopTrace shaderOf vp d st (r :: rs)).1 =
      evs1 ++ (renderLoopTrace shaderOf vp d st1 rs).1 ∧
    (∀ res, (renderLoopTrace shaderOf vp d st (r :: rs)).2 = .ok res →
      ∃ res1, (renderLoopTrace shaderOf vp d st1 rs).2 = .ok res1) := by
  rw [renderLoopTrace, h]
  simp only
  rcases h2 : renderLoopTrace shaderOf vp d st1 rs with ⟨evs2, res2⟩
  cases res2 with
  | error e => exact ⟨rfl, fun res hres => by simp at hres⟩
  | ok p2 => obtain ⟨st2, rs2⟩ := p2; exact ⟨rfl, fun _ _ => ⟨_, rfl⟩⟩

theorem renderLoopTrace_cons_error (shaderOf : MatRef → Option ShaderRef) (vp : glm.mat4)
    (d : Option MatRef) (st : BindState) (r : RenderComponent)
    (rs : List RenderComponent) (evs1 : List Event) (e : Fault)
    (h : renderEachTrace shaderOf vp d st r = (evs1, .error e)) :
    renderLoopTrace shaderOf vp d st (r :: rs) = (evs1, .error e) := by
  rw [renderLoopTrace, h]

/-- Shape of the events kept by the traced loop, for every list of renderables:
one segment per drawn renderable, the drawn renderables being the eligible ones
before the first null dereference, then the events of the renderable that
dereferences null, if any, which hold no instance update and no draw. -/
theorem renderLoopTrace_segments (shaderOf : MatRef → Option ShaderRef) (vp : glm.mat4)
    (d : Option MatRef) (rs : List RenderComponent) :
    ∀ st : BindState, ∃ segs tail drawn rest,
      (renderLoopTrace shaderOf vp d st rs).1 = segs.flatten ++ tail ∧
      (∀ e ∈ tail, isInstanceEvent e = false) ∧
      rs.filter (eligible d) = drawn ++ rest ∧
      List.Forall₂ (isSegmentOf shaderOf vp d) (withPrevious d st.currentMat drawn) segs ∧
      (∀ res, (renderLoopTrace shaderOf vp d st rs).2 = .ok res → rest = [] ∧ tail = []) := by
  induction rs with
  | nil =>
    intro st
    exact ⟨[], [], [], [], rfl, by simp, rfl, by simp [withPrevious], fun _ _ => ⟨rfl, rfl⟩⟩
  | cons r rs ih =>
    intro st
    rcases renderEachTrace_cases shaderOf vp d st r with
      ⟨he, h1⟩ | ⟨he, st1, r1, seg, h1, hcur, hseg⟩ | ⟨he, pre, e, h1, hpre⟩
    · obtain ⟨segs, tail, drawn, rest, hev, htail, hfil, hall, hok⟩ := ih st
      obtain ⟨hc1, hc2⟩ := renderLoopTrace_cons_ok shaderOf vp d st st r r rs [] h1
      refine ⟨segs, tail, drawn, rest, ?_, htail, ?_, hall, ?_⟩
      · rw [hc1, List.nil_append, hev]
      · rw [List.filter_cons, he]
        simpa using hfil
      · intro res hres
        obtain ⟨res1, hres1⟩ := hc2 res hres
        exact hok res1 hres1
    · obtain ⟨segs, tail, drawn, rest, hev, htail, hfil, hall, hok⟩ := ih st1
      obtain ⟨hc1, hc2⟩ := renderLoopTrace_cons_ok shaderOf vp d st st1 r r1 rs seg h1
      refine ⟨seg :: segs, tail, r :: drawn, rest, ?_, htail, ?_, ?_, ?_⟩
      · rw [hc1, hev, List.flatten_cons, List.append_assoc]
      · rw [List.filter_cons, if_pos he, hfil, List.cons_append]
      · rw [withPrevious, ← hcur]
        exact List.Forall₂.cons hseg hall
      · intro res hres
        obtain ⟨res1, hres1⟩ := hc2 res hres
        exact hok res1 hres1
    · refine ⟨[], pre, [], r :: rs.filter (eligible d), ?_, hpre, ?_, ?_, ?_⟩
      · rw [renderLoopTrace_cons_error shaderOf vp d st r rs pre e h1]
        rfl
      · rw [List.filter_cons, if_pos he, List.nil_append]
      · simp [withPrevious]
      · intro res hres
        rw [renderLoopTrace_cons_error shaderOf vp d st r rs pre e h1] at hres
        simp at hres

/-- A segment is a run of events without instance update or draw, followed by the
instance update of the owner and the draw of the mesh. -/
theorem isSegmentOf_shape (shaderOf : MatRef → Option ShaderRef) (vp : glm.mat4)
    (d : Option MatRef) (p : Option MatRef × RenderComponent) (seg : List Event)
    (h : isSegmentOf shaderOf vp d p seg) :
    ∃ mesh m o binds, p.2.mesh = some mesh ∧ resolvedMaterial d p.2 = some m ∧
      p.2.gameObject = some o ∧
      (binds = [] ∨ ∃ sh, shaderOf m = some sh ∧
        binds = [Event.shaderBind sh, Event.materialApply m]) ∧
      seg = ((if p.2.material = none then [Event.setMaterial m] else []) ++ binds) ++
        [Event.instanceUpdate (instanceData vp o), Event.meshDraw mesh] ∧
      ∀ e ∈ (if p.2.material = none then [Event.setMaterial m] else []) ++ binds,
        isInstanceEvent e = false := by
  obtain ⟨mesh, m, o, binds, hmesh, hmat, hobj, hsame, hdiff, hseg⟩ := h
  have hb : binds = [] ∨ ∃ sh, shaderOf m = some sh ∧
      binds = [Event.shaderBind sh, Event.materialApply m] := by
    by_cases hc : some m = p.1
    · exact Or.inl (hsame hc)
    · exact Or.inr (hdiff hc)
  refine ⟨mesh, m, o, binds, hmesh, hmat, hobj, hb, hseg, ?_⟩
  intro e he
  rcases List.mem_append.mp he with h | h
  · split_ifs at h
    · simp only [List.mem_singleton] at h
      subst h
      rfl
    · simp at h
  · rcases hb with hb | ⟨sh, _, hb⟩
    · rw [hb] at h
      simp at h
    · rw [hb] at h
      simp only [List.mem_cons, List.mem_singleton, List.not_mem_nil, or_false] at h
      rcases h with rfl | rfl <;> rfl

theorem updateDrawPaired_segments (shaderOf : MatRef → Option ShaderRef) (vp : glm.mat4)
    (d : Option MatRef) (l : List (Option MatRef × RenderComponent))
    (segs : List (List Event)) (h : List.Forall₂ (isSegmentOf shaderOf vp d) l segs) :
    ∀ rest, updateDrawPaired (segs.flatten ++ rest) = updateDrawPaired rest := by
  induction h with
  | nil => intro rest; rfl
  | cons hseg _ ih =>
    intro rest
    obtain ⟨mesh, m, o, binds, _, _, _, _, hshape, hpre⟩ :=
      isSegmentOf_shape shaderOf vp d _ _ hseg
    rw [List.flatten_cons, List.append_assoc, hshape,
      updateDrawPaired_segment _ _ _ _ hpre]
    exact ih rest

theorem isInstanceEvent_frameSetup (layer : RenderLayer) (scene : Scene) (camera : Camera) :
    ∀ e ∈ frameSetup layer scene camera, isInstanceEvent e = false := by
  unfold frameSetup frameEntry bindGlobals
  cases scene.skyboxTexture <;> cases scene.colorLUT <;> simp [isInstanceEvent]

end RenderLayer

/-! ## Claims on the render pass -/

namespace RenderLayer

/-- C1, as stated, fails: the second renderable of `sceneNullOwner` has a mesh and
a material, but its owning game object is null; the pass dereferences null at it,
so the draw calls issued are [1] while the renderables with a non-null mesh and a
resolvable material have meshes [1, 2]. -/
theorem C1_counterexample_null_owner :
    OnRender exampleLayer exampleTiming sceneNullOwner = .error Fault.nullGameObject ∧
    drawCalls (OnRenderTrace exampleLayer exampleTiming sceneNullOwner).1 = [1] ∧
    (sceneNullOwner.renderables.filter
      (eligible sceneNullOwner.DefaultMaterial)).filterMap (fun r => r.mesh) = [1, 2] :=
  ⟨rfl, rfl, rfl⟩

/-- C1, amended: in a pass over a scene with an active camera whose non-skipped
renderables hold a shader and an owner, the mesh draw calls are exactly the
renderables with a non-null mesh and a resolvable material, one draw each, in
scene order; with no default material the list [mesh null, material null] yields
no draw call. -/
theorem C1_draw_calls_are_eligible_renderables (layer : RenderLayer) (timing : Timing)
    (scene : Scene) (hcam : cameraReady scene = true)
    (hrun : ∀ r ∈ scene.renderables, runnable scene.shaderOf scene.DefaultMaterial r = true) :
    ∃ scene1 evs, OnRender layer timing scene = .ok (scene1, evs) ∧
      drawCalls evs =
        (scene.renderables.filter (eligible scene.DefaultMaterial)).filterMap (fun r => r.mesh) ∧
      (drawCalls evs).length =
        (scene.renderables.filter (eligible scene.DefaultMaterial)).length ∧
      (∀ r1 r2, scene.DefaultMaterial = none → scene.renderables = [r1, r2] →
        r1.mesh = none → r2.material = none → drawCalls evs = []) := by
  obtain ⟨camera, camObject, _, _, hrender⟩ := OnRender_of_camera layer timing scene hcam
  obtain ⟨st1, rs1, evs, hloop, hdraws, hlen⟩ :=
    renderLoop_drawCalls scene.shaderOf camera.viewProjection scene.DefaultMaterial
      scene.renderables noMaterialBound hrun
  rw [hloop] at hrender
  have hall : drawCalls (frameHeader layer timing scene camera camObject ++ evs ++
      [Event.drawSkybox, Event.vaoUnbind]) = drawCalls evs := by
    rw [drawCalls_append, drawCalls_append, drawCalls_frameHeader]
    simp [drawCalls]
  refine ⟨_, _, hrender, ?_, ?_, ?_⟩
  · rw [hall, hdraws]
  · rw [hall, hlen]
  · intro r1 r2 hd hrs h1 h2
    rw [hall, hdraws, hrs, hd]
    simp [List.filter_cons, eligible, resolvedMaterial, h1, h2]

/-- C1 (amended) applied to `sceneMixed`, where meshes 1 and 2 are drawn, and to
`sceneSkipBoth`, the scenario [mesh null, material null] without default. -/
theorem C1_draw_calls_witness :
    (cameraReady sceneMixed = true ∧
      (∀ r ∈ sceneMixed.renderables,
        runnable sceneMixed.shaderOf sceneMixed.DefaultMaterial r = true) ∧
      ∃ scene1 evs, OnRender exampleLayer exampleTiming sceneMixed = .ok (scene1, evs) ∧
        drawCalls evs = [1, 2]) ∧
    (cameraReady sceneSkipBoth = true ∧
      (∀ r ∈ sceneSkipBoth.renderables,
        runnable sceneSkipBoth.shaderOf sceneSkipBoth.DefaultMaterial r = true) ∧
      ∃ scene1 evs, OnRender exampleLayer exampleTiming sceneSkipBoth = .ok (scene1, evs) ∧
        drawCalls evs = []) := by
  refine ⟨⟨by decide, by decide, ?_⟩, ⟨by decide, by decide, ?_⟩⟩
  · obtain ⟨scene1, evs, hok, hdraws, _, _⟩ :=
      C1_draw_calls_are_eligible_renderables exampleLayer exampleTiming sceneMixed
        (by decide) (by decide)
    exact ⟨scene1, evs, hok, hdraws.trans rfl⟩
  · obtain ⟨scene1, evs, hok, _, _, hscenario⟩ :=
      C1_draw_calls_are_eligible_renderables exampleLayer exampleTiming sceneSkipBoth
        (by decide) (by decide)
    exact ⟨scene1, evs, hok, hscenario _ _ rfl rfl rfl rfl⟩

end RenderLayer

namespace RenderLayer

end RenderLayer

namespace RenderLayer

/-- C3, as stated, fails: a renderable with null material and null mesh in a scene
with a default material keeps its null material and is not drawn. -/
theorem C3_counterexample_null_mesh :
    renderableNoMeshNoMaterial.material = none ∧ sceneNoMesh.DefaultMaterial = some 9 ∧
    ∃ scene1 evs, OnRender exampleLayer exampleTiming sceneNoMesh = .ok (scene1, evs) ∧
      scene1.renderables.map (fun r => r.material) = [none] ∧
      drawCalls evs = [] ∧ bindCalls evs = [] :=
  ⟨rfl, rfl, _, _, rfl, rfl, rfl, rfl⟩

/-- C3, amended: a renderable with a non-null mesh and a null material, in a scene
with a default material holding a shader, the renderable being owned by a game
object, receives the default material (the first event of the step), the default
is bound unless it already is, and the instance update and the draw follow, the
default being the bound material; with no default material the renderable is
skipped, no event is issued and the bind state is left as it was. -/
theorem C3_null_material_fallback (shaderOf : MatRef → Option ShaderRef) (vp : glm.mat4)
    (st : BindState) (r : RenderComponent) (mesh : MeshRef)
    (hmesh : r.mesh = some mesh) (hmat : r.material = none) :
    (∀ dm sh o, shaderOf dm = some sh → r.gameObject = some o →
      ∃ st1, renderEach shaderOf vp (some dm) st r =
        .ok (st1, { r with material := some dm },
          [Event.setMaterial dm] ++
          (if some dm ≠ st.currentMat then [Event.shaderBind sh, Event.materialApply dm]
           else []) ++
          [Event.instanceUpdate (instanceData vp o), Event.meshDraw mesh]) ∧
        st1.currentMat = some dm) ∧
    renderEach shaderOf vp none st r = .ok (st, r, []) := by
  refine ⟨?_, ?_⟩
  · intro dm sh o hsh hobj
    have hres : resolvedMaterial (some dm) r = some dm := by simp [resolvedMaterial, hmat]
    refine ⟨if some dm ≠ st.currentMat then { currentMat := some dm, shader := some sh }
      else st, ?_, ?_⟩
    · rw [renderEach_draw shaderOf vp (some dm) st r mesh dm sh o hmesh hres hsh hobj]
      simp [stepEvents, hmat]
    · by_cases hc : st.currentMat = some dm
      · simp [hc]
      · have hc2 : ¬ some dm = st.currentMat := fun e => hc e.symm
        simp [hc2]
  · exact renderEach_skip shaderOf vp none st r (by simp [eligible, resolvedMaterial, hmat])

/-- C3 (amended) applied to a renderable with mesh 5 and no material. -/
theorem C3_null_material_fallback_witness :
    renderableNoMaterial.mesh = some 5 ∧ renderableNoMaterial.material = none ∧
    ((∀ dm sh o, exampleShaderOf dm = some sh → renderableNoMaterial.gameObject = some o →
      ∃ st1, renderEach exampleShaderOf 1 (some dm) noMaterialBound renderableNoMaterial =
        .ok (st1, { renderableNoMaterial with material := some dm },
          [Event.setMaterial dm] ++
          (if some dm ≠ noMaterialBound.currentMat then
             [Event.shaderBind sh, Event.materialApply dm]
           else []) ++
          [Event.instanceUpdate (instanceData 1 o), Event.meshDraw 5]) ∧
        st1.currentMat = some dm) ∧
    renderEach exampleShaderOf 1 none noMaterialBound renderableNoMaterial =
      .ok (noMaterialBound, renderableNoMaterial, [])) :=
  ⟨rfl, rfl, C3_null_material_fallback exampleShaderOf 1 noMaterialBound renderableNoMaterial 5
    rfl rfl⟩

/-- C4: a renderable with a null mesh, whatever its material and the default
material, goes through the loop body with no event (no draw, no bind), the bind
state and the renderable unchanged; a pass over a scene containing it issues the
events of the pass over the scene without it and returns it unchanged. -/
theorem C4_null_mesh_is_skipped (r : RenderComponent) (hmesh : r.mesh = none) :
    (∀ (shaderOf : MatRef → Option ShaderRef) (vp : glm.mat4) (d : Option MatRef)
        (st : BindState), renderEach shaderOf vp d st r = .ok (st, r, [])) ∧
    (∀ (layer : RenderLayer) (timing : Timing) (scene : Scene)
        (before after : List RenderComponent),
      OnRender layer timing { scene with renderables := before ++ r :: after } =
        match OnRender layer timing { scene with renderables := before ++ after } with
        | .error e => .error e
        | .ok (scene2, evs) =>
          .ok ({ scene2 with
                 renderables := scene2.renderables.take before.length ++
                   r :: scene2.renderables.drop before.length }, evs)) := by
  have hel : ∀ d, eligible d r = false := fun d => by simp [eligible, hmesh]
  refine ⟨fun shaderOf vp d st => renderEach_skip shaderOf vp d st r (hel d), ?_⟩
  intro layer timing scene before after
  unfold OnRender
  cases scene.MainCamera with
  | none => rfl
  | some camera =>
    cases hco : camera.gameObject with
    | none => simp [hco]
    | some camObject =>
      simp only [hco]
      rw [renderLoop_insert_skip scene.shaderOf camera.viewProjection scene.DefaultMaterial r
        after (hel _) before]
      cases renderLoop scene.shaderOf camera.viewProjection scene.DefaultMaterial
        { currentMat := none, shader := none } (before ++ after) with
      | error e => rfl
      | ok res => obtain ⟨st2, rs2, evs⟩ := res; rfl

/-- C4 applied to the renderable without mesh and material. -/
theorem C4_null_mesh_witness :
    renderableNoMeshNoMaterial.mesh = none ∧
    ((∀ (shaderOf : MatRef → Option ShaderRef) (vp : glm.mat4) (d : Option MatRef)
        (st : BindState),
        renderEach shaderOf vp d st renderableNoMeshNoMaterial =
          .ok (st, renderableNoMeshNoMaterial, [])) ∧
    (∀ (layer : RenderLayer) (timing : Timing) (scene : Scene)
        (before after : List RenderComponent),
      OnRender layer timing
          { scene with renderables := before ++ renderableNoMeshNoMaterial :: after } =
        match OnRender layer timing { scene with renderables := before ++ after } with
        | .error e => .error e
        | .ok (scene2, evs) =>
          .ok ({ scene2 with
                 renderables := scene2.renderables.take before.length ++
                   renderableNoMeshNoMaterial :: scene2.renderables.drop before.length },
               evs))) :=
  ⟨rfl, C4_null_mesh_is_skipped renderableNoMeshNoMaterial rfl⟩

end RenderLayer

namespace RenderLayer

/-- C7: for every scene and every list of renderables, the events issued by
`OnRender` (up to the end of the pass, or up to its first null dereference) are a
header, one segment per drawn renderable in scene order, and a tail; the drawn
renderables are the eligible ones (all of them when the pass completes, those
before the dereference otherwise); the segment of a renderable ends with one
instance update carrying the transform of its owner as model matrix and (cached
view-projection * that transform) as model-view-projection, immediately followed
by the draw of its mesh, and what precedes in the segment is the installation of
the default material and the shader/material bind, if any; header and tail hold
no instance update and no draw, so over the whole trace every draw is immediately
preceded by an update and every update immediately followed by a draw. -/
theorem C7_update_immediately_precedes_draw (layer : RenderLayer) (timing : Timing)
    (scene : Scene) :
    ∃ header segs tail drawn rest,
      (OnRenderTrace layer timing scene).1 = header ++ segs.flatten ++ tail ∧
      (∀ e ∈ header, isInstanceEvent e = false) ∧
      (∀ e ∈ tail, isInstanceEvent e = false) ∧
      scene.renderables.filter (eligible scene.DefaultMaterial) = drawn ++ rest ∧
      List.Forall₂
        (fun p seg => ∃ camera mesh m o u binds, scene.MainCamera = some camera ∧
          p.2.mesh = some mesh ∧ resolvedMaterial scene.DefaultMaterial p.2 = some m ∧
          p.2.gameObject = some o ∧
          u.u_Model = o.transform ∧
          u.u_ModelViewProjection = camera.viewProjection * o.transform ∧
          (binds = [] ∨ ∃ sh, scene.shaderOf m = some sh ∧
            binds = [Event.shaderBind sh, Event.materialApply m]) ∧
          seg = ((if p.2.material = none then [Event.setMaterial m] else []) ++ binds) ++
            [Event.instanceUpdate u, Event.meshDraw mesh])
        (withPrevious scene.DefaultMaterial none drawn) segs ∧
      updateDrawPaired (OnRenderTrace layer timing scene).1 = true ∧
      (∀ scene1, (OnRenderTrace layer timing scene).2 = .ok scene1 →
        rest = [] ∧ tail = [Event.drawSkybox, Event.vaoUnbind]) ∧
      (∀ scene1 evs, OnRender layer timing scene = .ok (scene1, evs) →
        evs = (OnRenderTrace layer timing scene).1 ∧ rest = []) := by
  have hlink : ∀ scene1 evs, OnRender layer timing scene = .ok (scene1, evs) →
      evs = (OnRenderTrace layer timing scene).1 ∧
      (OnRenderTrace layer timing scene).2 = .ok scene1 := by
    intro scene1 evs h
    rw [OnRender_eq_trace] at h
    rcases ht : OnRenderTrace layer timing scene with ⟨evs0, res0⟩
    rw [ht] at h
    cases res0 with
    | error e => simp at h
    | ok s0 =>
      simp only [Except.ok.injEq, Prod.mk.injEq] at h
      exact ⟨h.2.symm, by rw [h.1]⟩
  suffices hcore : ∃ header segs tail drawn rest,
      (OnRenderTrace layer timing scene).1 = header ++ segs.flatten ++ tail ∧
      (∀ e ∈ header, isInstanceEvent e = false) ∧
      (∀ e ∈ tail, isInstanceEvent e = false) ∧
      scene.renderables.filter (eligible scene.DefaultMaterial) = drawn ++ rest ∧
      List.Forall₂
        (fun p seg => ∃ camera mesh m o u binds, scene.MainCamera = some camera ∧
          p.2.mesh = some mesh ∧ resolvedMaterial scene.DefaultMaterial p.2 = some m ∧
          p.2.gameObject = some o ∧
          u.u_Model = o.transform ∧
          u.u_ModelViewProjection = camera.viewProjection * o.transform ∧
          (binds = [] ∨ ∃ sh, scene.shaderOf m = some sh ∧
            binds = [Event.shaderBind sh, Event.materialApply m]) ∧
          seg = ((if p.2.material = none then [Event.setMaterial m] else []) ++ binds) ++
            [Event.instanceUpdate u, Event.meshDraw mesh])
        (withPrevious scene.DefaultMaterial none drawn) segs ∧
      updateDrawPaired (OnRenderTrace layer timing scene).1 = true ∧
      (∀ scene1, (OnRenderTrace layer timing scene).2 = .ok scene1 →
        rest = [] ∧ tail = [Event.drawSkybox, Event.vaoUnbind]) by
    obtain ⟨header, segs, tail, drawn, rest, h1, h2, h3, h4, h5, h6, h7⟩ := hcore
    refine ⟨header, segs, tail, drawn, rest, h1, h2, h3, h4, h5, h6, h7, ?_⟩
    intro scene1 evs h
    obtain ⟨he, hr⟩ := hlink scene1 evs h
    exact ⟨he, (h7 scene1 hr).1⟩
  unfold OnRenderTrace
  cases hc : scene.MainCamera with
  | none =>
    refine ⟨frameEntry layer, [], [], [], _, by simp, ?_, by simp, (List.nil_append _).symm,
      by simp [withPrevious], rfl, ?_⟩
    · intro e he
      simp only [frameEntry, List.mem_cons, List.mem_singleton, List.not_mem_nil,
        or_false] at he
      rcases he with rfl | rfl | rfl <;> rfl
    · intro scene1 h
      simp at h
  | some camera =>
    simp only
    cases hco : camera.gameObject with
    | none =>
      refine ⟨frameSetup layer scene camera, [], [], [], _, by simp,
        isInstanceEvent_frameSetup layer scene camera, by simp, (List.nil_append _).symm,
        by simp [withPrevious], ?_, ?_⟩
      · have h := updateDrawPaired_append_left (frameSetup layer scene camera) []
          (isInstanceEvent_frameSetup layer scene camera)
        rw [List.append_nil] at h
        rw [h]
        rfl
      · intro scene1 h
        simp at h
    | some camObject =>
      simp only
      obtain ⟨segs, tail, drawn, rest, hev, htail, hfil, hall, hok⟩ :=
        renderLoopTrace_segments scene.shaderOf camera.viewProjection scene.DefaultMaterial
          scene.renderables { currentMat := none, shader := none }
      have hpairs := updateDrawPaired_segments scene.shaderOf camera.viewProjection
        scene.DefaultMaterial _ segs hall
      have hhead := isInstanceEvent_frameHeader layer timing scene camera camObject
      have hall2 : List.Forall₂
          (fun p seg => ∃ cam : Camera, ∃ mesh m o u binds, some camera = some cam ∧
            p.2.mesh = some mesh ∧ resolvedMaterial scene.DefaultMaterial p.2 = some m ∧
            p.2.gameObject = some o ∧
            u.u_Model = o.transform ∧
            u.u_ModelViewProjection = cam.viewProjection * o.transform ∧
            (binds = [] ∨ ∃ sh, scene.shaderOf m = some sh ∧
              binds = [Event.shaderBind sh, Event.materialApply m]) ∧
            seg = ((if p.2.material = none then [Event.setMaterial m] else []) ++ binds) ++
              [Event.instanceUpdate u, Event.meshDraw mesh])
          (withPrevious scene.DefaultMaterial none drawn) segs := by
        refine List.Forall₂.imp ?_ hall
        intro p seg hseg
        obtain ⟨mesh, m, o, binds, hmesh, hmat, hobj, hb, hshape, _⟩ :=
          isSegmentOf_shape scene.shaderOf camera.viewProjection scene.DefaultMaterial
            p seg hseg
        exact ⟨camera, mesh, m, o, instanceData camera.viewProjection o, binds, rfl, hmesh,
          hmat, hobj, rfl, rfl, hb, hshape⟩
      rcases hl : renderLoopTrace scene.shaderOf camera.viewProjection scene.DefaultMaterial
        { currentMat := none, shader := none } scene.renderables with ⟨evs, res⟩
      rw [hl] at hev hok
      simp only at hev
      cases res with
      | error e =>
        refine ⟨frameHeader layer timing scene camera camObject, segs, tail, drawn, rest,
          ?_, hhead, htail, hfil, hall2, ?_, ?_⟩
        · simp only [hev, List.append_assoc]
        · simp only [hev]
          rw [updateDrawPaired_append_left _ _ hhead, hpairs]
          have h := updateDrawPaired_append_left tail [] htail
          rw [List.append_nil] at h
          rw [h]
          rfl
        · intro scene1 h
          simp at h
      | ok p =>
        obtain ⟨st1, rs1⟩ := p
        obtain ⟨hrest, htl⟩ := hok (st1, rs1) rfl
        subst hrest htl
        rw [List.append_nil] at hev
        refine ⟨frameHeader layer timing scene camera camObject, segs,
          [Event.drawSkybox, Event.vaoUnbind], drawn, [], ?_, hhead, ?_, hfil, hall2, ?_, ?_⟩
        · simp only [hev]
        · intro e he
          simp only [List.mem_cons, List.mem_singleton, List.not_mem_nil, or_false] at he
          rcases he with rfl | rfl <;> rfl
        · simp only [hev, List.append_assoc]
          rw [updateDrawPaired_append_left _ _ hhead, hpairs]
          rfl
        · intro scene1 _
          exact ⟨rfl, rfl⟩

/-- C7 applied to `sceneNullOwner`, whose pass stops at the second renderable:
the draw of the first renderable, issued before the null dereference, is paired
with its update. -/
theorem C7_update_immediately_precedes_draw_witness :
    updateDrawPaired (OnRenderTrace exampleLayer exampleTiming sceneNullOwner).1 = true ∧
    drawCalls (OnRenderTrace exampleLayer exampleTiming sceneNullOwner).1 = [1] := by
  obtain ⟨_, _, _, _, _, _, _, _, _, _, hpaired, _, _⟩ :=
    C7_update_immediately_precedes_draw exampleLayer exampleTiming sceneNullOwner
  exact ⟨hpaired, rfl⟩

/-- C8, as stated, fails: with an active camera, a renderable with a valid mesh
whose material holds a null shader program makes the pass dereference null; the
skybox draw is not reached. -/
theorem C8_counterexample_null_shader :
    cameraReady sceneNullShader = true ∧
    OnRender exampleLayer exampleTiming sceneNullShader = .error Fault.nullShader :=
  ⟨rfl, rfl⟩

/-- C8, amended: given a scene with an active camera attached to a game object,
the pass completes (its trace ends with the skybox draw and the vertex-array
unbind) exactly when every renderable that is not skipped has a resolved material
holding a shader program and is owned by a game object; renderables with a
missing mesh or an unresolvable material are skipped and never fatal. -/
theorem C8_completes_iff_runnable (layer : RenderLayer) (timing : Timing) (scene : Scene)
    (hcam : cameraReady scene = true) :
    (∃ scene1 evs, OnRender layer timing scene =
        .ok (scene1, evs ++ [Event.drawSkybox, Event.vaoUnbind])) ↔
      ∀ r ∈ scene.renderables, runnable scene.shaderOf scene.DefaultMaterial r = true := by
  obtain ⟨camera, camObject, _, _, hrender⟩ := OnRender_of_camera layer timing scene hcam
  constructor
  · rintro ⟨scene1, evs, hok⟩
    rw [hok] at hrender
    cases hloop : renderLoop scene.shaderOf camera.viewProjection scene.DefaultMaterial
        noMaterialBound scene.renderables with
    | error e => simp [hloop] at hrender
    | ok res =>
      exact renderLoop_ok_runnable scene.shaderOf camera.viewProjection scene.DefaultMaterial
        scene.renderables noMaterialBound res (by simp [noMaterialBound]) hloop
  · intro hrun
    obtain ⟨st1, rs1, evs, hloop, _⟩ :=
      renderLoop_drawCalls scene.shaderOf camera.viewProjection scene.DefaultMaterial
        scene.renderables noMaterialBound hrun
    rw [hloop] at hrender
    exact ⟨_, _, hrender⟩

/-- C8 (amended) applied to `sceneMixed`. -/
theorem C8_completes_iff_runnable_witness :
    cameraReady sceneMixed = true ∧
    ((∃ scene1 evs, OnRender exampleLayer exampleTiming sceneMixed =
        .ok (scene1, evs ++ [Event.drawSkybox, Event.vaoUnbind])) ↔
      ∀ r ∈ sceneMixed.renderables,
        runnable sceneMixed.shaderOf sceneMixed.DefaultMaterial r = true) :=
  ⟨by decide, C8_completes_iff_runnable exampleLayer exampleTiming sceneMixed (by decide)⟩

end RenderLayer

namespace RenderLayer

/-- C5, as stated, fails: for the invertible matrix `modelProjective` the normal
matrix written by the pass has 2 as first entry, while the inverse transpose of
the upper-left 3x3 block (the identity) has 1. -/
theorem C5_counterexample_projective_row :
    modelProjective.det ≠ 0 ∧
    (instanceData 1 { transform := modelProjective, position := (0, 0, 0) }).u_NormalMatrix ≠
      glm.transpose (glm.inverse (glm.toMat3 modelProjective)) := by
  refine ⟨(Matrix.isUnit_det_of_right_inverse modelProjective_mul_inv).ne_zero, ?_⟩
  intro h
  have h00 := congrFun (congrFun h 0) 0
  have hinv : glm.inverse modelProjective = modelProjectiveInv := by
    rw [glm.inverse_eq_inv]
    exact Matrix.inv_eq_right_inv modelProjective_mul_inv
  simp only [instanceData] at h00
  rw [hinv, toMat3_modelProjective, glm.inverse_eq_inv] at h00
  simp [glm.toMat3, glm.transpose, modelProjectiveInv] at h00

/-- C5, amended: for every invertible model matrix with bottom row (0, 0, 0, w),
the normal matrix written to the instance uniforms, the upper-left 3x3 block of
the transposed inverse, is the transposed inverse of the upper-left 3x3 block of
the model matrix, and that block is invertible. -/
theorem C5_normal_matrix_of_affine (viewProj : glm.mat4) (object : GameObject)
    (hdet : object.transform.det ≠ 0)
    (hrow : ∀ j : Fin 3, object.transform (Fin.last 3) (Fin.castSucc j) = 0) :
    (glm.toMat3 object.transform).det ≠ 0 ∧
    (instanceData viewProj object).u_NormalMatrix =
      glm.transpose (glm.inverse (glm.toMat3 object.transform)) := by
  refine ⟨?_, ?_⟩
  · exact (Matrix.isUnit_det_of_left_inverse
      (glm.toMat3_inv_mul_toMat3 object.transform hdet hrow)).ne_zero
  · simp only [instanceData]
    rw [← glm.toMat3_inverse_of_affine object.transform hdet hrow]
    rfl

/-- C5 (amended) applied to the affine matrix `modelAffine`. -/
theorem C5_normal_matrix_of_affine_witness :
    modelAffine.det ≠ 0 ∧
    (∀ j : Fin 3, modelAffine (Fin.last 3) (Fin.castSucc j) = 0) ∧
    (glm.toMat3 modelAffine).det ≠ 0 ∧
    (instanceData 1 { transform := modelAffine, position := (0, 0, 0) }).u_NormalMatrix =
      glm.transpose (glm.inverse (glm.toMat3 modelAffine)) :=
  ⟨(Matrix.isUnit_det_of_right_inverse modelAffine_mul_inv).ne_zero, modelAffine_bottom_row,
    C5_normal_matrix_of_affine 1 { transform := modelAffine, position := (0, 0, 0) }
      (Matrix.isUnit_det_of_right_inverse modelAffine_mul_inv).ne_zero modelAffine_bottom_row⟩

end RenderLayer

/-! ## Claims on the window resize -/

namespace RenderLayer

/-- C6: a window-resize event whose new size has width 0 or height 0, whatever the
other dimension, leaves the output target and the scene (its camera included)
unchanged: no resize is applied and the camera is not notified. -/
theorem C6_zero_dimension_is_ignored (resizeWindow : Camera → Int → Int → Camera)
    (layer : RenderLayer) (scene : Scene) (oldSize newSize : glm.ivec2)
    (h : newSize.x = 0 ∨ newSize.y = 0) :
    OnWindowResize resizeWindow layer scene oldSize newSize = .ok (layer, scene) := by
  have hz : glm.mulInt32 newSize.x newSize.y = 0 := by
    rcases h with h | h <;> simp [glm.mulInt32, glm.wrapInt32, h]
  simp [OnWindowResize, hz]

/-- C6 applied to the new size (0, 600). -/
theorem C6_zero_dimension_witness :
    ((0 : Int) = 0 ∨ (600 : Int) = 0) ∧
    OnWindowResize (fun c _ _ => c) exampleLayer sceneMixed { x := 800, y := 600 }
      { x := 0, y := 600 } = .ok (exampleLayer, sceneMixed) :=
  ⟨Or.inl rfl,
    C6_zero_dimension_is_ignored (fun c _ _ => c) exampleLayer sceneMixed { x := 800, y := 600 }
      { x := 0, y := 600 } (Or.inl rfl)⟩

/-- C9 at the new size (65536, 65536): both dimensions are non-zero 32-bit
integers, their product wraps to 0, and the handler returns without resizing the
target or notifying the camera. -/
theorem C9_overflow_skips_resize :
    glm.isInt32 65536 = true ∧ (65536 : Int) ≠ 0 ∧ glm.mulInt32 65536 65536 = 0 ∧
    ∀ (resizeWindow : Camera → Int → Int → Camera) (layer : RenderLayer) (scene : Scene)
      (oldSize : glm.ivec2),
      OnWindowResize resizeWindow layer scene oldSize { x := 65536, y := 65536 } =
        .ok (layer, scene) := by
  refine ⟨by decide, by decide, by decide, ?_⟩
  intro resizeWindow layer scene oldSize
  have hz : glm.mulInt32 65536 65536 = 0 := by decide
  simp [OnWindowResize, hz]

end RenderLayer

/-! ## Claims on the movement component -/

namespace Movement

/-- C10, as stated, fails: with both keys down on a unit-mass body at velocity
(-19.95, 0, 0) and impulse 1/10, key D is down and the velocity x of the call is
at least -20, yet only the impulse (-1/10, 0, 0) is applied: the key-D test reads
the velocity after the first impulse, -20.05. -/
theorem C10_counterexample_velocity_after_first_impulse :
    (1 : Int) ≠ GLFW_RELEASE ∧
    (unitMassBody.GetLinearVelocity movementNearLowerBound.body).1 ≥ -20 ∧
    (unitMassBody.GetLinearVelocity movementNearLowerBound.body).1 ≤ 20 ∧
    (Update unitMassBody 1 1 0 movementNearLowerBound).2 = [(-1 / 10, 0, 0)] ∧
    (Update unitMassBody 1 1 0 movementNearLowerBound).1.is_moving = true := by
  refine ⟨by decide, ?_, ?_, ?_, ?_⟩
  · simp only [unitMassBody, movementNearLowerBound]
    norm_num
  · simp only [unitMassBody, movementNearLowerBound]
    norm_num
  · simp only [Update, unitMassBody, movementNearLowerBound, GLFW_PRESS]
    norm_num
  · simp only [Update, unitMassBody, movementNearLowerBound, GLFW_PRESS]
    norm_num

/-- C10, amended: after `Movement::Update`, for every key state and every rigid
body, the impulse (-_impulse, 0, 0) is applied exactly when key A is down and the
velocity x at entry is at most 20; the impulse (+_impulse, 0, 0) is applied
exactly when key D is down and the velocity x the body reports when the key-D
test runs (after the first impulse, if applied) is at least -20; the body has
received exactly these impulses, in this order; the rotation is (90, 0, 0) when
an impulse was applied and unchanged otherwise; `is_moving` is true exactly when
an impulse was applied; with neither key down no impulse is applied, rotation and
body are unchanged and `is_moving` is false whatever it was. -/
theorem C10_update_impulses_and_flag {β : Type} (ops : RigidBodyOps β) (keyA keyD : Int)
    (deltaTime : ℚ) (self : Movement β) :
    (Update ops keyA keyD deltaTime self).2 =
      (if firstImpulseApplied ops keyA self = true then [(-self._impulse, 0, 0)] else []) ++
      (if secondImpulseApplied ops keyA keyD self = true then [(self._impulse, 0, 0)]
       else []) ∧
    (Update ops keyA keyD deltaTime self).1.body =
      (if secondImpulseApplied ops keyA keyD self = true then
         ops.ApplyImpulse (bodyAfterFirst ops keyA self) (self._impulse, 0, 0)
       else bodyAfterFirst ops keyA self) ∧
    (Update ops keyA keyD deltaTime self).1.rotation =
      (if firstImpulseApplied ops keyA self = true ∨
          secondImpulseApplied ops keyA keyD self = true then (90, 0, 0)
       else self.rotation) ∧
    (Update ops keyA keyD deltaTime self).1.is_moving =
      (firstImpulseApplied ops keyA self || secondImpulseApplied ops keyA keyD self) ∧
    ((Update ops keyA keyD deltaTime self).1.is_moving = true ↔
      (Update ops keyA keyD deltaTime self).2 ≠ []) ∧
    (Update ops keyA keyD deltaTime self).1._impulse = self._impulse ∧
    (keyA = GLFW_RELEASE → keyD = GLFW_RELEASE →
      (Update ops keyA keyD deltaTime self).2 = [] ∧
      (Update ops keyA keyD deltaTime self).1.rotation = self.rotation ∧
      (Update ops keyA keyD deltaTime self).1.body = self.body ∧
      (Update ops keyA keyD deltaTime self).1.is_moving = false) := by
  have hp : GLFW_PRESS ≠ 0 := by decide
  by_cases hA : keyA = 0 <;> by_cases hD : keyD = 0 <;>
    by_cases hvA : (ops.GetLinearVelocity self.body).1 ≤ 20 <;>
    simp only [Update, firstImpulseApplied, secondImpulseApplied, bodyAfterFirst,
      GLFW_RELEASE, ne_eq, hp, hA, hD, hvA, not_true_eq_false,
      not_false_eq_true, and_self, and_true, and_false, false_and, true_and, if_true, if_false,
      List.nil_append, List.append_nil, decide_True, decide_False, Bool.false_eq_true,
      Bool.or_false, Bool.false_or, Bool.true_or, Bool.or_true, or_false, false_or, or_true,
      true_or, decide_eq_true_eq] <;>
    (try split_ifs) <;> simp_all

end Movement

namespace Movement

/-- C10 (amended) applied to a moving component with both keys released. -/
theorem C10_update_witness :
    (0 : Int) = GLFW_RELEASE ∧
    (Update unitMassBody 0 0 0 exampleMovement).2 = [] ∧
    (Update unitMassBody 0 0 0 exampleMovement).1.rotation = exampleMovement.rotation ∧
    (Update unitMassBody 0 0 0 exampleMovement).1.body = exampleMovement.body ∧
    (Update unitMassBody 0 0 0 exampleMovement).1.is_moving = false :=
  ⟨rfl, (C10_update_impulses_and_flag unitMassBody 0 0 0 exampleMovement).2.2.2.2.2.2 rfl rfl⟩

end Movement
